import Mathlib

/-!
Verification of the mainflux PostgreSQL things/channels repository layer
(`things/postgres/things.go` and `things/postgres/channels.go`).

The code is a thin translation layer between the domain service and a SQL
engine.  We embed it shallowly:

* the database is an in-memory state (`DB`) holding the three tables of the
  schema (`things`, `channels`, `connections`);
* the engine's constraint behaviour (primary keys, the UNIQUE key column,
  the two foreign keys of `connections`, `ON DELETE CASCADE`) is modelled by
  `engineInsert…` / `engineDelete…` functions that either return the new
  state or raise a `pq`-style error code;
* each repository operation is the corresponding Go function: it runs the
  engine statement and translates engine errors exactly as the Go
  `switch pqErr.Code.Name()` blocks do.  The translation of each operation
  is factored into its own `…Translate` function (one per Go error switch)
  so that its behaviour on engine failures that the in-memory engine cannot
  produce (e.g. opaque driver failures) is still stateable.

Machine integers (`uint64` offsets/limits, row counts) are modelled as `Nat`:
no arithmetic that could overflow is performed on them.  Metadata
(`map[string]interface{}`, serialized as JSON) is modelled as a flat
association list `List (String × String)`; the JSON round trip performed by
the codec (`json.Marshal` / `json.Unmarshal`) is the identity on this
representation, and the jsonb containment operator `@>` is pairwise subset.
-/

/-- Metadata: the open-ended attribute map of a Thing or Channel, modelled as
a flat association list (key/value pairs). -/
def Metadata := List (String × String)
deriving Repr, DecidableEq, BEq, Inhabited

/-- Postgres error-code names inspected by the Go layer, from the constants
`errDuplicate`, `errFK`, `errInvalid`, `errTruncation` in things.go, plus a
catch-all for any other code. -/
inductive PqCode where
  | uniqueViolation
  | foreignKeyViolation
  | invalidTextRepresentation
  | stringDataRightTruncation
  | otherCode (n : Nat)
deriving Repr, DecidableEq

/-- An error coming back from the storage engine / driver: a `pq.Error`
carrying a code, the `sql.ErrNoRows` sentinel of a row query, or any other
opaque driver failure. -/
inductive EngineError where
  | pqError (code : PqCode)
  | errNoRows
  | otherFailure (n : Nat)
deriving Repr, DecidableEq

/-- The error observed by the caller of the repository: one of the typed
`things.Err…` values, or an untranslated engine error passed through raw. -/
inductive RepoError where
  | errMalformedEntity
  | errConflict
  | errNotFound
  | errUnauthorizedAccess
  | errScanMetadata
  | engine (e : EngineError)
deriving Repr, DecidableEq

/-- Decidable equality of results, used to evaluate concrete runs. -/
instance exceptDecEq {ε α : Type} [DecidableEq ε] [DecidableEq α] :
    DecidableEq (Except ε α) := fun a b =>
  match a, b with
  | Except.error e, Except.error f =>
    if h : e = f then isTrue (by rw [h]) else isFalse (fun hh => h (Except.error.inj hh))
  | Except.ok x, Except.ok y =>
    if h : x = y then isTrue (by rw [h]) else isFalse (fun hh => h (Except.ok.inj hh))
  | Except.error _, Except.ok _ => isFalse (fun hh => Except.noConfusion hh)
  | Except.ok _, Except.error _ => isFalse (fun hh => Except.noConfusion hh)

/-- Row of the `things` table (Go struct `dbThing`; the serialized metadata
column is modelled by the map itself). -/
structure dbThing where
  ID : String
  Owner : String
  Name : String
  Key : String
  Metadata : Metadata
deriving Repr, DecidableEq

/-- Row of the `channels` table (Go struct `dbChannel`). -/
structure dbChannel where
  ID : String
  Owner : String
  Name : String
  Metadata : Metadata
deriving Repr, DecidableEq

/-- Row of the `connections` table, per the schema
`connections(channel_id, channel_owner, thing_id, thing_owner)`. -/
structure ConnectionRow where
  channel_id : String
  channel_owner : String
  thing_id : String
  thing_owner : String
deriving Repr, DecidableEq

/-- The storage state: the three tables of the schema. -/
structure DB where
  things : List dbThing
  channels : List dbChannel
  connections : List ConnectionRow
deriving Repr, DecidableEq

/-- Domain representation of a Thing (Go struct `things.Thing`). -/
structure Thing where
  ID : String
  Owner : String
  Name : String
  Key : String
  Metadata : Metadata
deriving Repr, DecidableEq

/-- Domain representation of a Channel (Go struct `things.Channel`). -/
structure Channel where
  ID : String
  Owner : String
  Name : String
  Metadata : Metadata
deriving Repr, DecidableEq

/-- Page of things (Go `things.ThingsPage`; the embedded `PageMetadata`
fields are flattened). -/
structure ThingsPage where
  Things : List Thing
  Total : Nat
  Offset : Nat
  Limit : Nat
deriving Repr, DecidableEq

/-- Page of channels (Go `things.ChannelsPage`). -/
structure ChannelsPage where
  Channels : List Channel
  Total : Nat
  Offset : Nat
  Limit : Nat
deriving Repr, DecidableEq

/-- Entity codec, Go `toDBThing`: the metadata map is serialized (empty map
stored as the empty document); on this representation the serialization is
the identity. -/
def toDBThing (th : Thing) : dbThing :=
  { ID := th.ID, Owner := th.Owner, Name := th.Name, Key := th.Key,
    Metadata := th.Metadata }

/-- Entity codec, Go `toThing`: deserializes the stored metadata document. -/
def toThing (r : dbThing) : Thing :=
  { ID := r.ID, Owner := r.Owner, Name := r.Name, Key := r.Key,
    Metadata := r.Metadata }

/-- Entity codec, Go `toDBChannel`. -/
def toDBChannel (ch : Channel) : dbChannel :=
  { ID := ch.ID, Owner := ch.Owner, Name := ch.Name, Metadata := ch.Metadata }

/-- Entity codec, Go `toChannel`. -/
def toChannel (r : dbChannel) : Channel :=
  { ID := r.ID, Owner := r.Owner, Name := r.Name, Metadata := r.Metadata }

/-- Does the character list `p` occur as a leading block of `l`?  Used to
model SQL `LIKE`-with-wildcards-on-both-sides matching. -/
def startsWithChars : List Char → List Char → Bool
  | [], _ => true
  | _ :: _, [] => false
  | a :: as, b :: bs => a == b && startsWithChars as bs

/-- Does the character list `p` occur contiguously anywhere inside `l`? -/
def hasSubChars (p : List Char) : List Char → Bool
  | [] => p.isEmpty
  | c :: cs => startsWithChars p (c :: cs) || hasSubChars p cs

/-- Lowercasing as performed by Go's `strings.ToLower` and by SQL
`LOWER(…)`, written as a character map so that concrete instances
evaluate. -/
def lowerStr (s : String) : String :=
  String.mk (s.toList.map Char.toLower)

/-- The `LOWER(name) LIKE :pattern` predicate produced by `getNameQuery`:
the filter is lowercased and wrapped in wildcards, so a row matches when the
lowercased filter is a contiguous substring of the lowercased stored name.
(Wildcard characters inside the filter itself are not modelled; no claim
depends on them.) -/
def likeLower (lowFilter : String) (storedName : String) : Bool :=
  hasSubChars lowFilter.toList (lowerStr storedName).toList

/-- The jsonb containment check `stored @> filter` on flat objects: every
pair of the filter document occurs in the stored document. -/
def mdContains (stored filterMd : Metadata) : Bool :=
  List.all filterMd (fun p => List.any stored (fun q => q == p))

/-- Identifier validator used by `RetrieveByChannel` / `RetrieveByThing`.
Modelled from the spec: the pre-flight identifier-format (UUID) check
performed by the external `uuid.FromString` collaborator, in its canonical
8-4-4-4-12 hexadecimal form. -/
def isHexChar (c : Char) : Bool :=
  (('0' ≤ c) && (c ≤ '9')) || (('a' ≤ c) && (c ≤ 'f')) || (('A' ≤ c) && (c ≤ 'F'))

/-- Canonical UUID format check, see `isHexChar`. -/
def isValidUUID (s : String) : Bool :=
  let cs := s.toList
  cs.length == 36 &&
    List.all (List.range 36) (fun i =>
      if i == 8 || i == 13 || i == 18 || i == 23 then cs.getD i ' ' == '-'
      else isHexChar (cs.getD i ' '))

/-- Insertion step of the id-ascending sort implementing `ORDER BY id` for
thing rows. -/
def insertThingRow (r : dbThing) : List dbThing → List dbThing
  | [] => [r]
  | x :: xs => if decide (r.ID ≤ x.ID) then r :: x :: xs else x :: insertThingRow r xs

/-- Id-ascending sort of thing rows (`ORDER BY id`). -/
def sortThingRows : List dbThing → List dbThing
  | [] => []
  | x :: xs => insertThingRow x (sortThingRows xs)

/-- Insertion step of the id-ascending sort for channel rows. -/
def insertChannelRow (r : dbChannel) : List dbChannel → List dbChannel
  | [] => [r]
  | x :: xs => if decide (r.ID ≤ x.ID) then r :: x :: xs else x :: insertChannelRow r xs

/-- Id-ascending sort of channel rows (`ORDER BY id`). -/
def sortChannelRows : List dbChannel → List dbChannel
  | [] => []
  | x :: xs => insertChannelRow x (sortChannelRows xs)

/-! ### Engine statements

Each models one SQL statement together with the constraint checks the
engine performs on it.  On a constraint violation the state is unchanged
and the corresponding `pq` error code is raised.  A uniqueness conflict is
detected at index insertion, before referential-integrity triggers run, so
the duplicate check precedes the foreign-key checks. -/

/-- `INSERT INTO things …`: primary key `id`, UNIQUE column `key`. -/
def engineInsertThing (db : DB) (row : dbThing) : Except EngineError DB :=
  if db.things.any (fun r => r.ID == row.ID) then
    Except.error (EngineError.pqError PqCode.uniqueViolation)
  else if db.things.any (fun r => r.Key == row.Key) then
    Except.error (EngineError.pqError PqCode.uniqueViolation)
  else
    Except.ok { db with things := db.things ++ [row] }

/-- `INSERT INTO channels …`: primary key `id`. -/
def engineInsertChannel (db : DB) (row : dbChannel) : Except EngineError DB :=
  if db.channels.any (fun r => r.ID == row.ID) then
    Except.error (EngineError.pqError PqCode.uniqueViolation)
  else
    Except.ok { db with channels := db.channels ++ [row] }

/-- `INSERT INTO connections …`: primary key `(channel_id, thing_id)`,
foreign keys into `channels` and `things`. -/
def engineInsertConnection (db : DB) (row : ConnectionRow) : Except EngineError DB :=
  if db.connections.any (fun r =>
      r.channel_id == row.channel_id && r.thing_id == row.thing_id) then
    Except.error (EngineError.pqError PqCode.uniqueViolation)
  else if !(db.channels.any (fun ch => ch.ID == row.channel_id)) then
    Except.error (EngineError.pqError PqCode.foreignKeyViolation)
  else if !(db.things.any (fun th => th.ID == row.thing_id)) then
    Except.error (EngineError.pqError PqCode.foreignKeyViolation)
  else
    Except.ok { db with connections := db.connections ++ [row] }

/-- `DELETE FROM things WHERE id = :id AND owner = :owner`, returning the
affected-row count; `ON DELETE CASCADE` removes the connection rows that
referenced a deleted thing. -/
def engineDeleteThing (db : DB) (owner id : String) : Nat × DB :=
  let gone := db.things.filter (fun r => r.ID == id && r.Owner == owner)
  (gone.length,
   { db with
     things := db.things.filter (fun r => !(r.ID == id && r.Owner == owner)),
     connections := db.connections.filter (fun c =>
       !(gone.any (fun g => g.ID == c.thing_id))) })

/-- `DELETE FROM channels WHERE id = :id AND owner = :owner`, with cascade
on the referencing connection rows. -/
def engineDeleteChannel (db : DB) (owner id : String) : Nat × DB :=
  let gone := db.channels.filter (fun r => r.ID == id && r.Owner == owner)
  (gone.length,
   { db with
     channels := db.channels.filter (fun r => !(r.ID == id && r.Owner == owner)),
     connections := db.connections.filter (fun c =>
       !(gone.any (fun g => g.ID == c.channel_id))) })

/-- `DELETE FROM connections WHERE channel_id = :channel AND channel_owner =
:owner AND thing_id = :thing AND thing_owner = :owner`, returning the
affected-row count. -/
def engineDeleteConnection (db : DB) (owner chanID thingID : String) : Nat × DB :=
  ((db.connections.filter (fun r =>
      r.channel_id == chanID && r.channel_owner == owner &&
      r.thing_id == thingID && r.thing_owner == owner)).length,
   { db with connections := db.connections.filter (fun r =>
      !(r.channel_id == chanID && r.channel_owner == owner &&
        r.thing_id == thingID && r.thing_owner == owner)) })

/-! ### Error translation, one function per Go error switch -/

/-- Error switch of Thing `Save` (things.go): invalid text representation
and string truncation become `ErrMalformedEntity`, a uniqueness violation
becomes `ErrConflict`, anything else is returned raw. -/
def thingSaveTranslate (e : EngineError) : RepoError :=
  match e with
  | EngineError.pqError PqCode.invalidTextRepresentation => RepoError.errMalformedEntity
  | EngineError.pqError PqCode.stringDataRightTruncation => RepoError.errMalformedEntity
  | EngineError.pqError PqCode.uniqueViolation => RepoError.errConflict
  | _ => RepoError.engine e

/-- Error switch of Thing `Update`: invalid text representation and string
truncation become `ErrMalformedEntity`; anything else is returned raw. -/
def thingUpdateTranslate (e : EngineError) : RepoError :=
  match e with
  | EngineError.pqError PqCode.invalidTextRepresentation => RepoError.errMalformedEntity
  | EngineError.pqError PqCode.stringDataRightTruncation => RepoError.errMalformedEntity
  | _ => RepoError.engine e

/-- Error switch of `UpdateKey`: invalid text representation becomes
`ErrMalformedEntity`, a uniqueness violation becomes `ErrConflict`;
anything else — including string truncation, which `Update` does
translate — is returned raw. -/
def updateKeyTranslate (e : EngineError) : RepoError :=
  match e with
  | EngineError.pqError PqCode.invalidTextRepresentation => RepoError.errMalformedEntity
  | EngineError.pqError PqCode.uniqueViolation => RepoError.errConflict
  | _ => RepoError.engine e

/-- Error switch of Channel `Save` (channels source file): invalid text
representation and string truncation become `ErrMalformedEntity`; anything
else — including a uniqueness violation — is returned raw. -/
def channelSaveTranslate (e : EngineError) : RepoError :=
  match e with
  | EngineError.pqError PqCode.invalidTextRepresentation => RepoError.errMalformedEntity
  | EngineError.pqError PqCode.stringDataRightTruncation => RepoError.errMalformedEntity
  | _ => RepoError.engine e

/-- Error switch of Channel `Update`: same classes as Thing `Update`. -/
def channelUpdateTranslate (e : EngineError) : RepoError :=
  match e with
  | EngineError.pqError PqCode.invalidTextRepresentation => RepoError.errMalformedEntity
  | EngineError.pqError PqCode.stringDataRightTruncation => RepoError.errMalformedEntity
  | _ => RepoError.engine e

/-- Result handling of `Remove` (both stores): the Go code discards both
return values of the delete statement (`tr.db.NamedExecContext(ctx, q,
dbth)` with no assignment) and returns `nil` unconditionally. -/
def removeTranslate (_r : Except EngineError Nat) : Except RepoError Unit :=
  Except.ok ()

/-- Error handling of `Connect`: a foreign-key violation becomes
`ErrNotFound`; a uniqueness violation is treated as success (connect is
idempotent); anything else is returned raw. -/
def connectTranslate (e : EngineError) : Except RepoError Unit :=
  match e with
  | EngineError.pqError PqCode.foreignKeyViolation => Except.error RepoError.errNotFound
  | EngineError.pqError PqCode.uniqueViolation => Except.ok ()
  | _ => Except.error (RepoError.engine e)

/-! ### Thing repository (things.go) -/

namespace thingRepository

/-- Go `thingRepository.Save`. -/
def Save (db : DB) (thing : Thing) : Except RepoError String × DB :=
  let dbth := toDBThing thing
  match engineInsertThing db dbth with
  | Except.error e => (Except.error (thingSaveTranslate e), db)
  | Except.ok db₂ => (Except.ok dbth.ID, db₂)

/-- Go `thingRepository.Update`: updates name and metadata of the row
matching owner and id; zero rows affected is `ErrNotFound`. -/
def Update (db : DB) (thing : Thing) : Except RepoError Unit × DB :=
  let dbth := toDBThing thing
  let cnt := (db.things.filter (fun r => r.Owner == dbth.Owner && r.ID == dbth.ID)).length
  let db₂ := { db with things := db.things.map (fun r =>
    if r.Owner == dbth.Owner && r.ID == dbth.ID then
      { r with Name := dbth.Name, Metadata := dbth.Metadata }
    else r) }
  (if cnt == 0 then Except.error RepoError.errNotFound else Except.ok (), db₂)

/-- Go `thingRepository.UpdateKey`: updates the key of the row matching
owner and id; a key held by any other row raises the engine's uniqueness
violation, translated by `updateKeyTranslate`; zero rows affected is
`ErrNotFound`. -/
def UpdateKey (db : DB) (owner id key : String) : Except RepoError Unit × DB :=
  let cnt := (db.things.filter (fun r => r.Owner == owner && r.ID == id)).length
  if cnt != 0 && db.things.any (fun r =>
      r.Key == key && !(r.Owner == owner && r.ID == id)) then
    (Except.error (updateKeyTranslate (EngineError.pqError PqCode.uniqueViolation)), db)
  else
    let db₂ := { db with things := db.things.map (fun r =>
      if r.Owner == owner && r.ID == id then { r with Key := key } else r) }
    (if cnt == 0 then Except.error RepoError.errNotFound else Except.ok (), db₂)

/-- Go `thingRepository.RetrieveByID`: single-row query on id and owner;
no row is `ErrNotFound` (as is an engine-level malformed-identifier error,
which the in-memory engine does not produce). -/
def RetrieveByID (db : DB) (owner id : String) : Except RepoError Thing :=
  match db.things.find? (fun r => r.ID == id && r.Owner == owner) with
  | some r => Except.ok (toThing r)
  | none => Except.error RepoError.errNotFound

/-- Go `thingRepository.RetrieveByKey`: reverse lookup of the key;
`sql.ErrNoRows` is translated to `ErrNotFound`. -/
def RetrieveByKey (db : DB) (key : String) : Except RepoError String :=
  match db.things.find? (fun r => r.Key == key) with
  | some r => Except.ok r.ID
  | none => Except.error RepoError.errNotFound

/-- Go `thingRepository.RetrieveAll`: page-contents query filtered by
owner, optional metadata containment and optional name substring, ordered
by id with limit/offset; the total comes from a second count query that
applies only the owner and optional name predicates. -/
def RetrieveAll (db : DB) (owner : String) (offset limit : Nat)
    (name : String) (metadata : Metadata) : Except RepoError ThingsPage :=
  let lname := lowerStr name
  let useName := !(lname == "")
  let useMd := !(List.isEmpty metadata)
  let rows := db.things.filter (fun r =>
    r.Owner == owner
    && (!useMd || mdContains r.Metadata metadata)
    && (!useName || likeLower lname r.Name))
  let items := (((sortThingRows rows).drop offset).take limit).map toThing
  let total :=
    if useName then
      (db.things.filter (fun r => r.Owner == owner && likeLower lname r.Name)).length
    else
      (db.things.filter (fun r => r.Owner == owner)).length
  Except.ok { Things := items, Total := total, Offset := offset, Limit := limit }

/-- Go `thingRepository.RetrieveByChannel`: rejects a channel identifier
failing the UUID format check with `ErrNotFound` before querying; otherwise
joins things with the connection rows of the channel, scoped by owner.
(Under the primary key of `connections` a thing joins at most one
connection row per channel, so the join is a filtered scan.) -/
def RetrieveByChannel (db : DB) (owner channel : String) (offset limit : Nat) :
    Except RepoError ThingsPage :=
  if !(isValidUUID channel) then Except.error RepoError.errNotFound
  else
    let rows := db.things.filter (fun th =>
      th.Owner == owner && db.connections.any (fun co =>
        co.thing_id == th.ID && co.channel_id == channel))
    let items := (((sortThingRows rows).drop offset).take limit).map toThing
    Except.ok { Things := items, Total := rows.length, Offset := offset, Limit := limit }

/-- Go `thingRepository.Remove`: executes the delete and ignores its result
entirely (see `removeTranslate`). -/
def Remove (db : DB) (owner id : String) : Except RepoError Unit × DB :=
  let p := engineDeleteThing db owner id
  (removeTranslate (Except.ok p.1), p.2)

end thingRepository

/-! ### Channel repository (channels source file) -/

namespace channelRepository

/-- Go `channelRepository.Save`; unlike Thing `Save` its error switch has
no uniqueness-violation case. -/
def Save (db : DB) (channel : Channel) : Except RepoError String × DB :=
  let dbch := toDBChannel channel
  match engineInsertChannel db dbch with
  | Except.error e => (Except.error (channelSaveTranslate e), db)
  | Except.ok db₂ => (Except.ok channel.ID, db₂)

/-- Go `channelRepository.Update`. -/
def Update (db : DB) (channel : Channel) : Except RepoError Unit × DB :=
  let dbch := toDBChannel channel
  let cnt := (db.channels.filter (fun r => r.Owner == dbch.Owner && r.ID == dbch.ID)).length
  let db₂ := { db with channels := db.channels.map (fun r =>
    if r.Owner == dbch.Owner && r.ID == dbch.ID then
      { r with Name := dbch.Name, Metadata := dbch.Metadata }
    else r) }
  (if cnt == 0 then Except.error RepoError.errNotFound else Except.ok (), db₂)

/-- Go `channelRepository.RetrieveByID`. -/
def RetrieveByID (db : DB) (owner id : String) : Except RepoError Channel :=
  match db.channels.find? (fun r => r.ID == id && r.Owner == owner) with
  | some r => Except.ok (toChannel r)
  | none => Except.error RepoError.errNotFound

/-- Go `channelRepository.RetrieveAll`: same query algorithm as the thing
store, including the second count query that omits the metadata
predicate. -/
def RetrieveAll (db : DB) (owner : String) (offset limit : Nat)
    (name : String) (metadata : Metadata) : Except RepoError ChannelsPage :=
  let lname := lowerStr name
  let useName := !(lname == "")
  let useMd := !(List.isEmpty metadata)
  let rows := db.channels.filter (fun r =>
    r.Owner == owner
    && (!useMd || mdContains r.Metadata metadata)
    && (!useName || likeLower lname r.Name))
  let items := (((sortChannelRows rows).drop offset).take limit).map toChannel
  let total :=
    if useName then
      (db.channels.filter (fun r => r.Owner == owner && likeLower lname r.Name)).length
    else
      (db.channels.filter (fun r => r.Owner == owner)).length
  Except.ok { Channels := items, Total := total, Offset := offset, Limit := limit }

/-- Go `channelRepository.RetrieveByThing`: rejects a thing identifier
failing the UUID format check with `ErrNotFound` before querying. -/
def RetrieveByThing (db : DB) (owner thing : String) (offset limit : Nat) :
    Except RepoError ChannelsPage :=
  if !(isValidUUID thing) then Except.error RepoError.errNotFound
  else
    let rows := db.channels.filter (fun ch =>
      ch.Owner == owner && db.connections.any (fun co =>
        co.channel_id == ch.ID && co.thing_id == thing))
    let items := (((sortChannelRows rows).drop offset).take limit).map toChannel
    Except.ok { Channels := items, Total := rows.length, Offset := offset, Limit := limit }

/-- Go `channelRepository.Remove`: executes the delete and ignores its
result entirely. -/
def Remove (db : DB) (owner id : String) : Except RepoError Unit × DB :=
  let p := engineDeleteChannel db owner id
  (removeTranslate (Except.ok p.1), p.2)

/-- Go `channelRepository.Connect`: inserts the relation row binding the
single owner argument to both owner columns, then translates engine errors
via `connectTranslate`. -/
def Connect (db : DB) (owner chanID thingID : String) : Except RepoError Unit × DB :=
  let row : ConnectionRow :=
    { channel_id := chanID, channel_owner := owner,
      thing_id := thingID, thing_owner := owner }
  match engineInsertConnection db row with
  | Except.error e => (connectTranslate e, db)
  | Except.ok db₂ => (Except.ok (), db₂)

/-- Go `channelRepository.Disconnect`: scoped delete of the relation row;
zero rows affected is `ErrNotFound`. -/
def Disconnect (db : DB) (owner chanID thingID : String) : Except RepoError Unit × DB :=
  let p := engineDeleteConnection db owner chanID thingID
  (if p.1 == 0 then Except.error RepoError.errNotFound else Except.ok (), p.2)

/-- Go `channelRepository.hasThing` (the shared helper): existence check on
the connection pair; a missing pair is `ErrUnauthorizedAccess`. -/
def hasThing (db : DB) (chanID thingID : String) : Except RepoError Unit :=
  if db.connections.any (fun co => co.channel_id == chanID && co.thing_id == thingID) then
    Except.ok ()
  else
    Except.error RepoError.errUnauthorizedAccess

/-- Go `channelRepository.HasThing`: inlined key lookup (whose no-rows
failure is returned raw, untranslated) followed by the pair-existence
check. -/
def HasThing (db : DB) (chanID key : String) : Except RepoError String :=
  match db.things.find? (fun t => t.Key == key) with
  | none => Except.error (RepoError.engine EngineError.errNoRows)
  | some t =>
    match hasThing db chanID t.ID with
    | Except.error e => Except.error e
    | Except.ok _ => Except.ok t.ID

/-- Go `channelRepository.HasThingByID`. -/
def HasThingByID (db : DB) (chanID thingID : String) : Except RepoError Unit :=
  hasThing db chanID thingID

end channelRepository

/-! ### Well-formedness and invariants -/

/-- Well-formed storage state: the primary keys of the three tables hold,
the `key` column of `things` is unique, and the two foreign keys of
`connections` are satisfied. -/
def WF (db : DB) : Prop :=
  (db.things.map (fun r => r.ID)).Nodup ∧
  (db.things.map (fun r => r.Key)).Nodup ∧
  (db.channels.map (fun r => r.ID)).Nodup ∧
  (db.connections.map (fun r => (r.channel_id, r.thing_id))).Nodup ∧
  ∀ r ∈ db.connections,
    (∃ ch ∈ db.channels, ch.ID = r.channel_id) ∧
    (∃ th ∈ db.things, th.ID = r.thing_id)

instance (db : DB) : Decidable (WF db) := by
  unfold WF; infer_instance

/-- Invariant of the connection table claimed by C10: every relation row
carries the same identity in both of its owner columns. -/
def OwnersAligned (db : DB) : Prop :=
  ∀ r ∈ db.connections, r.channel_owner = r.thing_owner

instance (db : DB) : Decidable (OwnersAligned db) := by
  unfold OwnersAligned; infer_instance

/-! ### Spec-side counting definitions (for the C3 refinement statement) -/

/-- The name predicate of the spec, in terms of the original filter: empty
filter matches everything, otherwise case-insensitive substring match. -/
def nameMatch (filterName storedName : String) : Bool :=
  (lowerStr filterName == "") || likeLower (lowerStr filterName) storedName

/-- Number of thing rows matching owner and name filter alone (the
predicate set of the count query). -/
def ownerNameCountThings (db : DB) (owner name : String) : Nat :=
  (db.things.filter (fun r => r.Owner == owner && nameMatch name r.Name)).length

/-- Number of thing rows matching owner, name filter and metadata filter
(the predicate set of the page-contents query). -/
def fullFilterCountThings (db : DB) (owner name : String) (md : Metadata) : Nat :=
  (db.things.filter (fun r =>
    r.Owner == owner && nameMatch name r.Name &&
    (List.isEmpty md || mdContains r.Metadata md))).length

/-- Number of channel rows matching owner and name filter alone. -/
def ownerNameCountChannels (db : DB) (owner name : String) : Nat :=
  (db.channels.filter (fun r => r.Owner == owner && nameMatch name r.Name)).length

/-- Number of channel rows matching owner, name filter and metadata
filter. -/
def fullFilterCountChannels (db : DB) (owner name : String) (md : Metadata) : Nat :=
  (db.channels.filter (fun r =>
    r.Owner == owner && nameMatch name r.Name &&
    (List.isEmpty md || mdContains r.Metadata md))).length

/-! ### Concrete states for witnesses and counterexamples -/

/-- Empty storage state. -/
def emptyDB : DB := { things := [], channels := [], connections := [] }

/-- One thing and one channel under owner `o`, not connected. -/
def dbPair : DB :=
  { things := [{ ID := "th1", Owner := "o", Name := "t", Key := "k1", Metadata := [] }],
    channels := [{ ID := "ch1", Owner := "o", Name := "c", Metadata := [] }],
    connections := [] }

/-- Two things under owner `o`; only the first carries metadata key `a`,
and the two channels mirror the same shape. -/
def dbMeta : DB :=
  { things :=
      [{ ID := "t1", Owner := "o", Name := "n1", Key := "k1", Metadata := [("a", "1")] },
       { ID := "t2", Owner := "o", Name := "n2", Key := "k2", Metadata := [] }],
    channels :=
      [{ ID := "c1", Owner := "o", Name := "n1", Metadata := [("a", "1")] },
       { ID := "c2", Owner := "o", Name := "n2", Metadata := [] }],
    connections := [] }

/-- Two things of the same owner with distinct keys, for the key-collision
scenario. -/
def dbTwoKeys : DB :=
  { things :=
      [{ ID := "id1", Owner := "o", Name := "n", Key := "kA", Metadata := [] },
       { ID := "id2", Owner := "o", Name := "n", Key := "kB", Metadata := [] }],
    channels := [], connections := [] }

/-- A single channel, for the duplicate-channel-save scenario. -/
def dbOneChannel : DB :=
  { things := [],
    channels := [{ ID := "c1", Owner := "o", Name := "n", Metadata := [] }],
    connections := [] }

/-- The thing inserted in the round-trip witness. -/
def thingW : Thing :=
  { ID := "t1", Owner := "o", Name := "nm", Key := "k", Metadata := [("a", "b")] }

/-- The state after saving `thingW` into the empty state. -/
def dbAfterSaveW : DB :=
  { things := [toDBThing thingW], channels := [], connections := [] }

/-- A channel whose id collides with the one already in `dbOneChannel`. -/
def chDup : Channel := { ID := "c1", Owner := "p", Name := "x", Metadata := [] }

/-- A state whose single connection row is aligned, for the C10 witness. -/
def dbConn : DB :=
  { things := [{ ID := "th1", Owner := "o", Name := "t", Key := "k1", Metadata := [] }],
    channels := [{ ID := "ch1", Owner := "o", Name := "c", Metadata := [] }],
    connections :=
      [{ channel_id := "ch1", channel_owner := "o", thing_id := "th1", thing_owner := "o" }] }

/-! ### Helper lemmas -/

/-- Under the primary key of `connections`, a present pair indexes exactly
one row. -/
theorem conn_filter_length_one (l : List ConnectionRow) (c t : String)
    (hnd : (l.map (fun r => (r.channel_id, r.thing_id))).Nodup)
    (hk : ∃ r ∈ l, r.channel_id = c ∧ r.thing_id = t) :
    (l.filter (fun r => r.channel_id == c && r.thing_id == t)).length = 1 := by
  induction l with
  | nil => simp at hk
  | cons a as ih =>
    rw [List.map_cons, List.nodup_cons] at hnd
    obtain ⟨hna, hnd'⟩ := hnd
    by_cases ha : a.channel_id = c ∧ a.thing_id = t
    · obtain ⟨h1, h2⟩ := ha
      have hnil : as.filter (fun r => r.channel_id == c && r.thing_id == t) = [] := by
        rw [List.filter_eq_nil_iff]
        intro x hx hpx
        simp only [Bool.and_eq_true, beq_iff_eq] at hpx
        have hmem : (x.channel_id, x.thing_id) ∈
            as.map (fun r => (r.channel_id, r.thing_id)) :=
          List.mem_map_of_mem _ hx
        rw [hpx.1, hpx.2, ← h1, ← h2] at hmem
        exact hna hmem
      rw [List.filter_cons_of_pos (by simp [h1, h2]), hnil]
      rfl
    · rw [List.filter_cons_of_neg (by simp only [Bool.and_eq_true, beq_iff_eq]; exact ha)]
      obtain ⟨r, hr, hrk⟩ := hk
      rcases List.mem_cons.mp hr with hr | hr
      · exact absurd (hr ▸ hrk) ha
      · exact ih hnd' ⟨r, hr, hrk⟩

/-- C1: Connect is idempotent.  If both endpoints exist in a well-formed
state, two consecutive `Connect` calls with the same owner, channel and
thing both return success, the second leaves the state unchanged, and the
state after them holds exactly one relation row for the pair; the engine's
uniqueness violation is translated to success. -/
theorem connect_twice_idempotent (db : DB) (o c t : String) (hwf : WF db)
    (hc : ∃ ch ∈ db.channels, ch.ID = c) (ht : ∃ th ∈ db.things, th.ID = t) :
    connectTranslate (EngineError.pqError PqCode.uniqueViolation) = Except.ok () ∧
    ∃ db₁ : DB,
      channelRepository.Connect db o c t = (Except.ok (), db₁) ∧
      channelRepository.Connect db₁ o c t = (Except.ok (), db₁) ∧
      (db₁.connections.filter (fun r => r.channel_id == c && r.thing_id == t)).length = 1 := by
  obtain ⟨-, -, -, hnconn, -⟩ := hwf
  have hchT : db.channels.any (fun ch => ch.ID == c) = true := by
    rw [List.any_eq_true]
    obtain ⟨ch, hch, hcheq⟩ := hc
    exact ⟨ch, hch, by simp [hcheq]⟩
  have hthT : db.things.any (fun th => th.ID == t) = true := by
    rw [List.any_eq_true]
    obtain ⟨th, hth, htheq⟩ := ht
    exact ⟨th, hth, by simp [htheq]⟩
  refine ⟨rfl, ?_⟩
  by_cases hdup : db.connections.any (fun r => r.channel_id == c && r.thing_id == t) = true
  · refine ⟨db, ?_, ?_, ?_⟩
    · simp [channelRepository.Connect, engineInsertConnection, hdup, connectTranslate]
    · simp [channelRepository.Connect, engineInsertConnection, hdup, connectTranslate]
    · apply conn_filter_length_one db.connections c t hnconn
      obtain ⟨r, hr, hrp⟩ := List.any_eq_true.mp hdup
      simp only [Bool.and_eq_true, beq_iff_eq] at hrp
      exact ⟨r, hr, hrp⟩
  · rw [Bool.not_eq_true] at hdup
    refine ⟨{ db with connections := db.connections ++
        [{ channel_id := c, channel_owner := o, thing_id := t, thing_owner := o }] },
      ?_, ?_, ?_⟩
    · simp [channelRepository.Connect, engineInsertConnection, hdup, hchT, hthT]
    · simp [channelRepository.Connect, engineInsertConnection, hdup, hchT, hthT,
        connectTranslate]
    · have hnil : db.connections.filter
          (fun r => r.channel_id == c && r.thing_id == t) = [] := by
        rw [List.filter_eq_nil_iff]
        intro x hx hpx
        have hx2 : db.connections.any
            (fun r => r.channel_id == c && r.thing_id == t) = true :=
          List.any_eq_true.mpr ⟨x, hx, hpx⟩
        rw [hdup] at hx2
        exact Bool.false_ne_true hx2
      simp [List.filter_append, hnil]

/-- Witness for `connect_twice_idempotent` at a concrete one-thing /
one-channel state. -/
theorem connect_twice_idempotent_witness :
    WF dbPair ∧
    (connectTranslate (EngineError.pqError PqCode.uniqueViolation) = Except.ok () ∧
     ∃ db₁ : DB,
       channelRepository.Connect dbPair "o" "ch1" "th1" = (Except.ok (), db₁) ∧
       channelRepository.Connect db₁ "o" "ch1" "th1" = (Except.ok (), db₁) ∧
       (db₁.connections.filter
         (fun r => r.channel_id == "ch1" && r.thing_id == "th1")).length = 1) :=
  ⟨by decide, connect_twice_idempotent dbPair "o" "ch1" "th1" (by decide)
    ⟨{ ID := "ch1", Owner := "o", Name := "c", Metadata := [] }, by decide, rfl⟩
    ⟨{ ID := "th1", Owner := "o", Name := "t", Key := "k1", Metadata := [] }, by decide, rfl⟩⟩

/-- C2: in a well-formed state, if either endpoint of the pair does not
exist, `Connect` returns `ErrNotFound` and leaves the state unchanged:
the engine's foreign-key violation is translated to `ErrNotFound`. -/
theorem connect_missing_endpoint_notFound (db : DB) (o c t : String) (hwf : WF db)
    (h : (∀ ch ∈ db.channels, ch.ID ≠ c) ∨ (∀ th ∈ db.things, th.ID ≠ t)) :
    channelRepository.Connect db o c t = (Except.error RepoError.errNotFound, db) ∧
    connectTranslate (EngineError.pqError PqCode.foreignKeyViolation) =
      Except.error RepoError.errNotFound := by
  obtain ⟨-, -, -, -, hfk⟩ := hwf
  refine ⟨?_, rfl⟩
  have hdup : db.connections.any (fun r => r.channel_id == c && r.thing_id == t) = false := by
    rw [Bool.eq_false_iff]
    intro hany
    obtain ⟨r, hr, hrp⟩ := List.any_eq_true.mp hany
    simp only [Bool.and_eq_true, beq_iff_eq] at hrp
    obtain ⟨⟨ch, hch, hcheq⟩, ⟨th, hth, htheq⟩⟩ := hfk r hr
    rcases h with h | h
    · exact h ch hch (by rw [hcheq, hrp.1])
    · exact h th hth (by rw [htheq, hrp.2])
  rcases h with h | h
  · have hchF : db.channels.any (fun ch => ch.ID == c) = false := by
      rw [Bool.eq_false_iff]
      intro hany
      obtain ⟨ch, hch, hcheq⟩ := List.any_eq_true.mp hany
      exact h ch hch (by simpa using hcheq)
    simp [channelRepository.Connect, engineInsertConnection, hdup, hchF, connectTranslate]
  · have hthF : db.things.any (fun th => th.ID == t) = false := by
      rw [Bool.eq_false_iff]
      intro hany
      obtain ⟨th, hth, htheq⟩ := List.any_eq_true.mp hany
      exact h th hth (by simpa using htheq)
    cases hca : db.channels.any (fun ch => ch.ID == c) <;>
      simp [channelRepository.Connect, engineInsertConnection, hdup, hca, hthF, connectTranslate]

/-- Witness for `connect_missing_endpoint_notFound`: connecting to an
absent channel in a state holding only a thing. -/
theorem connect_missing_endpoint_notFound_witness :
    WF dbPair ∧
    (channelRepository.Connect dbPair "o" "nosuch" "th1" =
      (Except.error RepoError.errNotFound, dbPair) ∧
     connectTranslate (EngineError.pqError PqCode.foreignKeyViolation) =
       Except.error RepoError.errNotFound) :=
  ⟨by decide, connect_missing_endpoint_notFound dbPair "o" "nosuch" "th1" (by decide)
    (Or.inl (by decide))⟩

/-- C4 counterexample: with a syntactically invalid channel identifier,
`RetrieveByChannel` returns the typed `ErrNotFound` error — it does not
return an empty page as a non-error result. -/
theorem retrieveByChannel_invalid_id_errors :
    thingRepository.RetrieveByChannel emptyDB "o" "not-a-uuid" 0 10 =
      Except.error RepoError.errNotFound ∧
    thingRepository.RetrieveByChannel emptyDB "o" "not-a-uuid" 0 10 ≠
      Except.ok { Things := [], Total := 0, Offset := 0, Limit := 10 } := by
  decide

/-- C4 (amended): for every state, owner, offset and limit, a channel
identifier failing the UUID format check makes `RetrieveByChannel` return
the `ErrNotFound` error kind before any query runs — never a raw
storage-engine format error — and symmetrically for `RetrieveByThing`
with a malformed thing identifier. -/
theorem invalid_uuid_notFound (db : DB) (o c t : String) (off lim : Nat)
    (hc : isValidUUID c = false) (ht : isValidUUID t = false) :
    thingRepository.RetrieveByChannel db o c off lim = Except.error RepoError.errNotFound ∧
    channelRepository.RetrieveByThing db o t off lim = Except.error RepoError.errNotFound := by
  constructor
  · simp [thingRepository.RetrieveByChannel, hc]
  · simp [channelRepository.RetrieveByThing, ht]

/-- Witness for `invalid_uuid_notFound` on a concrete malformed
identifier. -/
theorem invalid_uuid_notFound_witness :
    isValidUUID "not-a-uuid" = false ∧
    (thingRepository.RetrieveByChannel emptyDB "o" "not-a-uuid" 0 10 =
       Except.error RepoError.errNotFound ∧
     channelRepository.RetrieveByThing emptyDB "o" "not-a-uuid" 0 10 =
       Except.error RepoError.errNotFound) :=
  ⟨by decide,
   invalid_uuid_notFound emptyDB "o" "not-a-uuid" "not-a-uuid" 0 10 (by decide) (by decide)⟩

/-- C5 counterexample: `UpdateKey` does not translate the engine's
string-data-truncation condition (it passes it through raw), although
`Update` does translate it to `ErrMalformedEntity` — so the two
operations do not share the same validation error classes. -/
theorem updateKey_truncation_not_malformed :
    updateKeyTranslate (EngineError.pqError PqCode.stringDataRightTruncation) ≠
      RepoError.errMalformedEntity ∧
    updateKeyTranslate (EngineError.pqError PqCode.stringDataRightTruncation) =
      RepoError.engine (EngineError.pqError PqCode.stringDataRightTruncation) ∧
    thingUpdateTranslate (EngineError.pqError PqCode.stringDataRightTruncation) =
      RepoError.errMalformedEntity := by
  decide

/-- C5 (amended): `UpdateKey` translates invalid-text-representation to
`ErrMalformedEntity` exactly as `Update` does, but unlike `Update` it
leaves string-data-truncation untranslated; on a key collision with
another Thing it fails with `ErrConflict` and leaves the state (hence the
original key) unchanged. -/
theorem updateKey_conflict_and_translation (db : DB) (o id newKey : String)
    (hrow : ∃ r ∈ db.things, r.Owner = o ∧ r.ID = id)
    (hcol : ∃ r ∈ db.things, r.Key = newKey ∧ ¬(r.Owner = o ∧ r.ID = id)) :
    thingRepository.UpdateKey db o id newKey = (Except.error RepoError.errConflict, db) ∧
    updateKeyTranslate (EngineError.pqError PqCode.invalidTextRepresentation) =
      RepoError.errMalformedEntity ∧
    thingUpdateTranslate (EngineError.pqError PqCode.invalidTextRepresentation) =
      RepoError.errMalformedEntity ∧
    thingUpdateTranslate (EngineError.pqError PqCode.stringDataRightTruncation) =
      RepoError.errMalformedEntity ∧
    updateKeyTranslate (EngineError.pqError PqCode.stringDataRightTruncation) =
      RepoError.engine (EngineError.pqError PqCode.stringDataRightTruncation) := by
  refine ⟨?_, rfl, rfl, rfl, rfl⟩
  have hcnt : ((db.things.filter (fun r => r.Owner == o && r.ID == id)).length != 0) = true := by
    obtain ⟨r, hr, hro, hri⟩ := hrow
    have hmem : r ∈ db.things.filter (fun r => r.Owner == o && r.ID == id) :=
      List.mem_filter.mpr ⟨hr, by simp [hro, hri]⟩
    have hpos : 0 < (db.things.filter (fun r => r.Owner == o && r.ID == id)).length :=
      List.length_pos.mpr (List.ne_nil_of_mem hmem)
    simpa [bne_iff_ne] using Nat.pos_iff_ne_zero.mp hpos
  have hany : (db.things.any (fun r =>
      r.Key == newKey && !(r.Owner == o && r.ID == id))) = true := by
    obtain ⟨r, hr, hrk, hrno⟩ := hcol
    rw [List.any_eq_true]
    refine ⟨r, hr, ?_⟩
    have hfalse : (r.Owner == o && r.ID == id) = false := by
      rw [Bool.eq_false_iff]
      intro hb
      simp only [Bool.and_eq_true, beq_iff_eq] at hb
      exact hrno hb
    simp [hrk, hfalse]
  simp only [thingRepository.UpdateKey]
  rw [hcnt, hany]
  simp [updateKeyTranslate]

/-- Witness for `updateKey_conflict_and_translation`: rotating `id1`'s key
to the key already held by `id2`. -/
theorem updateKey_conflict_and_translation_witness :
    thingRepository.UpdateKey dbTwoKeys "o" "id1" "kB" =
      (Except.error RepoError.errConflict, dbTwoKeys) :=
  (updateKey_conflict_and_translation dbTwoKeys "o" "id1" "kB"
    ⟨{ ID := "id1", Owner := "o", Name := "n", Key := "kA", Metadata := [] },
      by decide, by decide⟩
    ⟨{ ID := "id2", Owner := "o", Name := "n", Key := "kB", Metadata := [] },
      by decide, by decide⟩).1

/-- C6 counterexample: an opaque storage-engine failure during the Remove
delete statement is not propagated to the caller — the Go code discards
the statement's result and returns success. -/
theorem remove_discards_engine_error :
    removeTranslate (Except.error (EngineError.otherFailure 7)) ≠
      Except.error (RepoError.engine (EngineError.otherFailure 7)) ∧
    removeTranslate (Except.error (EngineError.otherFailure 7)) = Except.ok () := by
  decide

/-- C6 (amended): `Remove` reports success when the targeted row is
absent, and more generally swallows every outcome of the delete
statement, engine failures included: it returns success unconditionally
instead of passing the engine error through. -/
theorem remove_always_succeeds (db : DB) (o id : String) :
    (thingRepository.Remove db o id).1 = Except.ok () ∧
    (channelRepository.Remove db o id).1 = Except.ok () ∧
    ∀ r : Except EngineError Nat, removeTranslate r = Except.ok () :=
  ⟨rfl, rfl, fun _ => rfl⟩

/-- C8: Channel `Save` translates only the invalid-text-representation and
string-truncation conditions to `ErrMalformedEntity`; a uniqueness
violation (duplicate channel id) reaches the caller as the raw engine
error, unlike Thing `Save` which translates it to `ErrConflict`. -/
theorem channel_save_duplicate_raw (db : DB) (ch : Channel)
    (hdup : ∃ r ∈ db.channels, r.ID = ch.ID) :
    channelRepository.Save db ch =
      (Except.error (RepoError.engine (EngineError.pqError PqCode.uniqueViolation)), db) ∧
    channelSaveTranslate (EngineError.pqError PqCode.invalidTextRepresentation) =
      RepoError.errMalformedEntity ∧
    channelSaveTranslate (EngineError.pqError PqCode.stringDataRightTruncation) =
      RepoError.errMalformedEntity ∧
    channelSaveTranslate (EngineError.pqError PqCode.uniqueViolation) =
      RepoError.engine (EngineError.pqError PqCode.uniqueViolation) ∧
    thingSaveTranslate (EngineError.pqError PqCode.uniqueViolation) =
      RepoError.errConflict := by
  refine ⟨?_, rfl, rfl, rfl, rfl⟩
  have hany : (db.channels.any (fun r => r.ID == ch.ID)) = true := by
    obtain ⟨r, hr, hre⟩ := hdup
    rw [List.any_eq_true]
    exact ⟨r, hr, by simp [hre]⟩
  simp [channelRepository.Save, engineInsertChannel, toDBChannel, hany, channelSaveTranslate]

/-- Witness for `channel_save_duplicate_raw`: saving a channel whose id
already exists. -/
theorem channel_save_duplicate_raw_witness :
    channelRepository.Save dbOneChannel chDup =
      (Except.error (RepoError.engine (EngineError.pqError PqCode.uniqueViolation)),
       dbOneChannel) :=
  (channel_save_duplicate_raw dbOneChannel chDup
    ⟨{ ID := "c1", Owner := "o", Name := "n", Metadata := [] }, by decide, by decide⟩).1

/-- C9: when the key resolves to no Thing, `HasThing` returns the raw
no-rows engine error untranslated — neither `ErrNotFound` (which the
stand-alone `RetrieveByKey` produces on the same state) nor
`ErrUnauthorizedAccess`. -/
theorem hasThing_noRows_passthrough (db : DB) (chanID key : String)
    (h : ∀ th ∈ db.things, th.Key ≠ key) :
    channelRepository.HasThing db chanID key =
      Except.error (RepoError.engine EngineError.errNoRows) ∧
    thingRepository.RetrieveByKey db key = Except.error RepoError.errNotFound ∧
    RepoError.engine EngineError.errNoRows ≠ RepoError.errNotFound ∧
    RepoError.engine EngineError.errNoRows ≠ RepoError.errUnauthorizedAccess := by
  have hfind : db.things.find? (fun t => t.Key == key) = none := by
    rw [List.find?_eq_none]
    intro x hx
    simp only [beq_iff_eq]
    exact h x hx
  refine ⟨?_, ?_, by decide, by decide⟩
  · simp [channelRepository.HasThing, hfind]
  · simp [thingRepository.RetrieveByKey, hfind]

/-- Witness for `hasThing_noRows_passthrough` at a key held by no thing. -/
theorem hasThing_noRows_passthrough_witness :
    channelRepository.HasThing dbPair "ch1" "zzz" =
      Except.error (RepoError.engine EngineError.errNoRows) ∧
    thingRepository.RetrieveByKey dbPair "zzz" = Except.error RepoError.errNotFound ∧
    RepoError.engine EngineError.errNoRows ≠ RepoError.errNotFound ∧
    RepoError.engine EngineError.errNoRows ≠ RepoError.errUnauthorizedAccess :=
  hasThing_noRows_passthrough dbPair "ch1" "zzz" (by decide)

/-- C7: if `Save` succeeds for a Thing, a subsequent `RetrieveByID` with
the same owner and id succeeds and returns a Thing equal to the saved one
(all fields, metadata included — also when the metadata map is empty). -/
theorem save_retrieve_roundtrip (db : DB) (T : Thing) (db₂ : DB)
    (hsave : thingRepository.Save db T = (Except.ok T.ID, db₂)) :
    thingRepository.RetrieveByID db₂ T.Owner T.ID = Except.ok T := by
  simp only [thingRepository.Save] at hsave
  cases hE : engineInsertThing db (toDBThing T) with
  | error e => rw [hE] at hsave; simp at hsave
  | ok dbn =>
    rw [hE] at hsave
    simp only [Prod.mk.injEq] at hsave
    obtain ⟨-, hdb⟩ := hsave
    subst hdb
    simp only [engineInsertThing] at hE
    split at hE
    · simp at hE
    · split at hE
      · simp at hE
      rename_i h1 h2
      rw [Except.ok.injEq] at hE
      subst hE
      have hnone : db.things.find? (fun r => r.ID == T.ID && r.Owner == T.Owner) = none := by
        rw [List.find?_eq_none]
        intro x hx hpx
        apply h1
        simp only [Bool.and_eq_true] at hpx
        rw [List.any_eq_true]
        exact ⟨x, hx, by simpa [toDBThing] using hpx.1⟩
      simp only [thingRepository.RetrieveByID]
      rw [List.find?_append, hnone]
      simp [List.find?, toDBThing, toThing]

/-- Witness for `save_retrieve_roundtrip`: saving a concrete thing into
the empty state and reading it back. -/
theorem save_retrieve_roundtrip_witness :
    thingRepository.Save emptyDB thingW = (Except.ok thingW.ID, dbAfterSaveW) ∧
    thingRepository.RetrieveByID dbAfterSaveW thingW.Owner thingW.ID = Except.ok thingW :=
  ⟨by decide, save_retrieve_roundtrip emptyDB thingW dbAfterSaveW (by decide)⟩

/-- The thing count over owner, name and metadata predicates never exceeds
the count over owner and name alone. -/
theorem fullFilterCount_le_things (db : DB) (o nm : String) (md : Metadata) :
    fullFilterCountThings db o nm md ≤ ownerNameCountThings db o nm := by
  unfold fullFilterCountThings ownerNameCountThings
  have hcomm : ∀ x ∈ db.things,
      (x.Owner == o && nameMatch nm x.Name &&
        (List.isEmpty md || mdContains x.Metadata md)) =
      ((List.isEmpty md || mdContains x.Metadata md) &&
        (x.Owner == o && nameMatch nm x.Name)) := by
    intro x _
    rw [Bool.and_comm]
  rw [List.filter_congr hcomm, ← List.filter_filter]
  exact List.length_filter_le _ _

/-- The channel count over owner, name and metadata predicates never
exceeds the count over owner and name alone. -/
theorem fullFilterCount_le_channels (db : DB) (o nm : String) (md : Metadata) :
    fullFilterCountChannels db o nm md ≤ ownerNameCountChannels db o nm := by
  unfold fullFilterCountChannels ownerNameCountChannels
  have hcomm : ∀ x ∈ db.channels,
      (x.Owner == o && nameMatch nm x.Name &&
        (List.isEmpty md || mdContains x.Metadata md)) =
      ((List.isEmpty md || mdContains x.Metadata md) &&
        (x.Owner == o && nameMatch nm x.Name)) := by
    intro x _
    rw [Bool.and_comm]
  rw [List.filter_congr hcomm, ← List.filter_filter]
  exact List.length_filter_le _ _

/-- The count query of Thing `RetrieveAll` (owner plus optional name
predicate, metadata predicate omitted) computes `ownerNameCountThings`. -/
theorem retrieveAll_total_things (db : DB) (o nm : String) :
    (if !(lowerStr nm == "") then
        (db.things.filter (fun r => r.Owner == o && likeLower (lowerStr nm) r.Name)).length
      else (db.things.filter (fun r => r.Owner == o)).length)
      = ownerNameCountThings db o nm := by
  unfold ownerNameCountThings
  by_cases hn : (lowerStr nm == "") = true
  · rw [hn]
    apply congrArg List.length
    apply List.filter_congr
    intro x _
    simp [nameMatch, hn]
  · rw [Bool.not_eq_true] at hn
    rw [hn]
    apply congrArg List.length
    apply List.filter_congr
    intro x _
    simp [nameMatch, hn]

/-- The count query of Channel `RetrieveAll` computes
`ownerNameCountChannels`. -/
theorem retrieveAll_total_channels (db : DB) (o nm : String) :
    (if !(lowerStr nm == "") then
        (db.channels.filter (fun r => r.Owner == o && likeLower (lowerStr nm) r.Name)).length
      else (db.channels.filter (fun r => r.Owner == o)).length)
      = ownerNameCountChannels db o nm := by
  unfold ownerNameCountChannels
  by_cases hn : (lowerStr nm == "") = true
  · rw [hn]
    apply congrArg List.length
    apply List.filter_congr
    intro x _
    simp [nameMatch, hn]
  · rw [Bool.not_eq_true] at hn
    rw [hn]
    apply congrArg List.length
    apply List.filter_congr
    intro x _
    simp [nameMatch, hn]

/-- C3: for every owner, offset, limit, name filter and metadata filter,
both `RetrieveAll` operations succeed and report a `Total` computed by the
second count query from the owner and optional name predicates alone —
the metadata predicate is omitted — so `Total` equals the owner-and-name
count and is an upper bound of (and, at the concrete state `dbMeta`,
strictly exceeds) the count with the metadata filter applied. -/
theorem retrieveAll_total_omits_metadata (db : DB) (o : String) (off lim : Nat)
    (nm : String) (md : Metadata) :
    (∃ tp, thingRepository.RetrieveAll db o off lim nm md = Except.ok tp ∧
      tp.Total = ownerNameCountThings db o nm ∧
      fullFilterCountThings db o nm md ≤ tp.Total) ∧
    (∃ cp, channelRepository.RetrieveAll db o off lim nm md = Except.ok cp ∧
      cp.Total = ownerNameCountChannels db o nm ∧
      fullFilterCountChannels db o nm md ≤ cp.Total) ∧
    ownerNameCountThings dbMeta "o" "" = 2 ∧
    fullFilterCountThings dbMeta "o" "" [("a", "1")] = 1 ∧
    ownerNameCountChannels dbMeta "o" "" = 2 ∧
    fullFilterCountChannels dbMeta "o" "" [("a", "1")] = 1 := by
  refine ⟨⟨_, rfl, ?_, ?_⟩, ⟨_, rfl, ?_, ?_⟩, by decide, by decide, by decide, by decide⟩
  · exact retrieveAll_total_things db o nm
  · exact le_of_le_of_eq (fullFilterCount_le_things db o nm md)
      (retrieveAll_total_things db o nm).symm
  · exact retrieveAll_total_channels db o nm
  · exact le_of_le_of_eq (fullFilterCount_le_channels db o nm md)
      (retrieveAll_total_channels db o nm).symm

/-- Thing `Save` never touches the connection table. -/
theorem save_thing_connections (db : DB) (th : Thing) :
    (thingRepository.Save db th).2.connections = db.connections := by
  simp only [thingRepository.Save]
  cases hE : engineInsertThing db (toDBThing th) with
  | error e => rfl
  | ok dbn =>
    show dbn.connections = db.connections
    simp only [engineInsertThing] at hE
    split at hE
    · simp at hE
    · split at hE
      · simp at hE
      rw [Except.ok.injEq] at hE
      subst hE
      rfl

/-- Channel `Save` never touches the connection table. -/
theorem save_channel_connections (db : DB) (ch : Channel) :
    (channelRepository.Save db ch).2.connections = db.connections := by
  simp only [channelRepository.Save]
  cases hE : engineInsertChannel db (toDBChannel ch) with
  | error e => rfl
  | ok dbn =>
    show dbn.connections = db.connections
    simp only [engineInsertChannel] at hE
    split at hE
    · simp at hE
    rw [Except.ok.injEq] at hE
    subst hE
    rfl

/-- `UpdateKey` never touches the connection table. -/
theorem updateKey_connections (db : DB) (o id key : String) :
    (thingRepository.UpdateKey db o id key).2.connections = db.connections := by
  simp only [thingRepository.UpdateKey]
  split <;> rfl

/-- Rows surviving Thing `Remove` (cascade included) were present before. -/
theorem remove_thing_connections_sub (db : DB) (o id : String) :
    ∀ r ∈ (thingRepository.Remove db o id).2.connections, r ∈ db.connections := by
  intro r hr
  exact List.mem_of_mem_filter hr

/-- Rows surviving Channel `Remove` (cascade included) were present
before. -/
theorem remove_channel_connections_sub (db : DB) (o id : String) :
    ∀ r ∈ (channelRepository.Remove db o id).2.connections, r ∈ db.connections := by
  intro r hr
  exact List.mem_of_mem_filter hr

/-- Rows surviving `Disconnect` were present before. -/
theorem disconnect_connections_sub (db : DB) (o c t : String) :
    ∀ r ∈ (channelRepository.Disconnect db o c t).2.connections, r ∈ db.connections := by
  intro r hr
  exact List.mem_of_mem_filter hr

/-- Every connection row present after `Connect` was either present before
or is the freshly inserted row, which carries the caller's owner in both
owner columns. -/
theorem connect_connections_cases (db : DB) (o c t : String) :
    ∀ r ∈ (channelRepository.Connect db o c t).2.connections,
      r ∈ db.connections ∨ (r.channel_owner = o ∧ r.thing_owner = o) := by
  intro r hr
  simp only [channelRepository.Connect] at hr
  cases hE : engineInsertConnection db
      { channel_id := c, channel_owner := o, thing_id := t, thing_owner := o } with
  | error e =>
    rw [hE] at hr
    exact Or.inl hr
  | ok dbn =>
    rw [hE] at hr
    simp only [engineInsertConnection] at hE
    split at hE
    · simp at hE
    · split at hE
      · simp at hE
      · split at hE
        · simp at hE
        rw [Except.ok.injEq] at hE
        subst hE
        rcases List.mem_append.mp hr with hmem | hmem
        · exact Or.inl hmem
        · rw [List.mem_singleton] at hmem
          subst hmem
          exact Or.inr ⟨rfl, rfl⟩

/-- A row deleted by `Disconnect` matched the whole delete predicate, so
both of its owner columns equal the caller's owner. -/
theorem disconnect_deletes_scoped (db : DB) (o c t : String) :
    ∀ r ∈ db.connections, r ∉ (channelRepository.Disconnect db o c t).2.connections →
      r.channel_owner = o ∧ r.thing_owner = o := by
  intro r hr hnot
  by_contra hcon
  apply hnot
  have hp : (r.channel_id == c && r.channel_owner == o &&
      r.thing_id == t && r.thing_owner == o) = false := by
    rw [Bool.eq_false_iff]
    intro hb
    simp only [Bool.and_eq_true, beq_iff_eq] at hb
    exact hcon ⟨hb.1.1.2, hb.2⟩
  exact List.mem_filter.mpr ⟨hr, by simp [hp]⟩

/-- C10: `Connect` binds the single owner argument to both owner columns
of the inserted relation row; the both-owner-columns-equal property of the
connection table is preserved by every operation of the layer; and
`Disconnect` deletes only rows whose two owner columns both equal the
caller's owner. -/
theorem connection_owner_invariant (db : DB) (o c t id key : String)
    (th : Thing) (ch : Channel) (h : OwnersAligned db) :
    OwnersAligned (thingRepository.Save db th).2 ∧
    OwnersAligned (channelRepository.Save db ch).2 ∧
    OwnersAligned (thingRepository.Update db th).2 ∧
    OwnersAligned (channelRepository.Update db ch).2 ∧
    OwnersAligned (thingRepository.UpdateKey db o id key).2 ∧
    OwnersAligned (thingRepository.Remove db o id).2 ∧
    OwnersAligned (channelRepository.Remove db o id).2 ∧
    OwnersAligned (channelRepository.Connect db o c t).2 ∧
    OwnersAligned (channelRepository.Disconnect db o c t).2 ∧
    (∀ r ∈ (channelRepository.Connect db o c t).2.connections,
      r ∈ db.connections ∨ (r.channel_owner = o ∧ r.thing_owner = o)) ∧
    (∀ r ∈ db.connections, r ∉ (channelRepository.Disconnect db o c t).2.connections →
      r.channel_owner = o ∧ r.thing_owner = o) := by
  refine ⟨?_, ?_, ?_, ?_, ?_, ?_, ?_, ?_, ?_,
    connect_connections_cases db o c t, disconnect_deletes_scoped db o c t⟩
  · intro r hr
    rw [save_thing_connections db th] at hr
    exact h r hr
  · intro r hr
    rw [save_channel_connections db ch] at hr
    exact h r hr
  · intro r hr
    exact h r hr
  · intro r hr
    exact h r hr
  · intro r hr
    rw [updateKey_connections db o id key] at hr
    exact h r hr
  · intro r hr
    exact h r (remove_thing_connections_sub db o id r hr)
  · intro r hr
    exact h r (remove_channel_connections_sub db o id r hr)
  · intro r hr
    rcases connect_connections_cases db o c t r hr with hmem | ⟨h1, h2⟩
    · exact h r hmem
    · rw [h1, h2]
  · intro r hr
    exact h r (disconnect_connections_sub db o c t r hr)

/-- Witness for `connection_owner_invariant` at a concrete aligned
state. -/
theorem connection_owner_invariant_witness :
    OwnersAligned dbConn ∧
    (OwnersAligned (thingRepository.Save dbConn thingW).2 ∧
     OwnersAligned (channelRepository.Save dbConn chDup).2 ∧
     OwnersAligned (thingRepository.Update dbConn thingW).2 ∧
     OwnersAligned (channelRepository.Update dbConn chDup).2 ∧
     OwnersAligned (thingRepository.UpdateKey dbConn "o" "th1" "k9").2 ∧
     OwnersAligned (thingRepository.Remove dbConn "o" "th1").2 ∧
     OwnersAligned (channelRepository.Remove dbConn "o" "th1").2 ∧
     OwnersAligned (channelRepository.Connect dbConn "o" "ch1" "th1").2 ∧
     OwnersAligned (channelRepository.Disconnect dbConn "o" "ch1" "th1").2 ∧
     (∀ r ∈ (channelRepository.Connect dbConn "o" "ch1" "th1").2.connections,
       r ∈ dbConn.connections ∨ (r.channel_owner = "o" ∧ r.thing_owner = "o")) ∧
     (∀ r ∈ dbConn.connections,
       r ∉ (channelRepository.Disconnect dbConn "o" "ch1" "th1").2.connections →
       r.channel_owner = "o" ∧ r.thing_owner = "o")) :=
  ⟨by decide,
   connection_owner_invariant dbConn "o" "ch1" "th1" "th1" "k9" thingW chDup (by decide)⟩
